import Mathlib

/-!
Verification of the gradient-ascent optimizer core of the repository
(`src/cmyvektor.hpp` and `src/iteration.hpp`).

The C++ `double` arithmetic is embedded as exact rational arithmetic (`ℚ`):
all claims under study concern the algebraic structure of the algorithm
(which candidate point is chosen, how the step size evolves, when the loop
stops), not floating-point rounding.  The only operation that leaves `ℚ` is
the Euclidean norm `sqrt (Σ aᵢ²)`, which the code uses solely in comparisons
`norm a < c` against a positive constant; since `sqrt s < c ↔ s < c²` for
`0 < c`, such comparisons are rendered exactly by `normSq a < c²`
(definition `norm_lt`, justified by lemma `norm_lt_iff_sqrt` below).
-/

namespace GradOpt

/-- `CMyVektor<N>` from `cmyvektor.hpp`: a fixed-dimension vector of `N`
reals (a `std::array<double, N>`), embedded as a length-indexed list of
rationals. -/
abbrev CMyVektor (N : ℕ) : Type := Mathlib.Vector ℚ N

/-- `operator+` from `cmyvektor.hpp`: elementwise vector sum
(`ret[i] = a[i] + b[i]` for `i = 0 .. N-1`). -/
def vecAdd {N : ℕ} (a b : CMyVektor N) : CMyVektor N :=
  Mathlib.Vector.ofFn fun i => a.get i + b.get i

/-- `operator*` from `cmyvektor.hpp`: scalar product
(`ret[i] = a[i] * lambda` for `i = 0 .. N-1`). -/
def scalarMul {N : ℕ} (lambda : ℚ) (a : CMyVektor N) : CMyVektor N :=
  Mathlib.Vector.ofFn fun i => a.get i * lambda

/-- The finite-difference constant `H = 10.0e-8` of
`CMyVektor<N>::gradient` (exact value `1/10^7`). -/
def H : ℚ := 10e-8

/-- `CMyVektor<N>::gradient` from `cmyvektor.hpp`: the loop body computes
`ret[i] = (funktion(arg) - funktion(*this)) / H` where `arg` is `*this`
with component `i` replaced by `(*this)[i] + H`. -/
def gradient {N : ℕ} (x : CMyVektor N) (funktion : CMyVektor N → ℚ) :
    CMyVektor N :=
  Mathlib.Vector.ofFn fun i =>
    (funktion (x.set i (x.get i + H)) - funktion x) / H

/-- Sum of squared components of a vector: the accumulator value of
`CMyVektor<N>::norm` (`arg += pow(e, 2)` over all components `e`, in
order) before the final `sqrt(arg)`. -/
def normSq {N : ℕ} (a : CMyVektor N) : ℚ :=
  a.toList.foldl (fun arg e => arg + e ^ 2) 0

/-- The comparison `a.norm() < c` of the source, rendered exactly in `ℚ`:
for `0 < c` the source's `sqrt (normSq a) < c` is equivalent to
`normSq a < c ^ 2` (lemma `norm_lt_iff_sqrt`). -/
def norm_lt {N : ℕ} (a : CMyVektor N) (c : ℚ) : Prop := normSq a < c ^ 2

instance {N : ℕ} (a : CMyVektor N) (c : ℚ) : Decidable (norm_lt a c) :=
  inferInstanceAs (Decidable (_ < _))

/-- The accumulator of `normSq` is a running sum of squares. -/
theorem normSq_foldl_eq (l : List ℚ) (s : ℚ) :
    l.foldl (fun arg e => arg + e ^ 2) s = s + (l.map (fun e => e ^ 2)).sum := by
  induction l generalizing s with
  | nil => simp
  | cons e t ih => simp [List.foldl_cons, ih, add_assoc]

/-- `normSq` is nonnegative (every summand is a square). -/
theorem normSq_nonneg {N : ℕ} (a : CMyVektor N) : 0 ≤ normSq a := by
  rw [normSq, normSq_foldl_eq, zero_add]
  apply List.sum_nonneg
  intro x hx
  obtain ⟨e, _, rfl⟩ := List.mem_map.mp hx
  positivity

/-- `norm_lt` is exactly the source's comparison of the Euclidean norm
against a positive bound. -/
theorem norm_lt_iff_sqrt {N : ℕ} (a : CMyVektor N) (c : ℚ) (hc : 0 < c) :
    norm_lt a c ↔ Real.sqrt ((normSq a : ℚ) : ℝ) < (c : ℝ) := by
  rw [Real.sqrt_lt' (by exact_mod_cast hc)]
  constructor
  · intro h
    exact_mod_cast h
  · intro h
    exact_mod_cast h

/-- `Point<N>` from `iteration.hpp`: a location in the preimage together
with the objective's value there. -/
structure Point (N : ℕ) where
  vector : CMyVektor N
  value : ℚ

/-- The `Point(vector, funktion)` constructor of `iteration.hpp`:
`value = funktion(vector)`. -/
def Point.ofFun {N : ℕ} (vector : CMyVektor N)
    (funktion : CMyVektor N → ℚ) : Point N :=
  ⟨vector, funktion vector⟩

/-- `IterationData<N>` from `iteration.hpp`: all data of one iteration of
the optimizer, including the associated objective `funktion`. -/
structure IterationData (N : ℕ) where
  funktion : CMyVektor N → ℚ
  index : ℕ
  step_size : ℚ
  current : Point N
  current_grad : CMyVektor N
  next : Point N
  test : Point N

namespace IterationData

/-- `IterationData<N>::MAX_ITERATIONS = 25`. -/
def MAX_ITERATIONS : ℕ := 25

/-- `IterationData<N>::GRAD_LIMIT = 10.0e-5` (exact value `1/10^4`). -/
def GRAD_LIMIT : ℚ := 10e-5

/-- `IterationData<N>::use_next`: `next.value > current.value`. -/
def use_next {N : ℕ} (d : IterationData N) : Prop :=
  d.next.value > d.current.value

instance {N : ℕ} (d : IterationData N) : Decidable d.use_next :=
  inferInstanceAs (Decidable (_ < _))

/-- `IterationData<N>::use_test`: `use_next() && test.value > next.value`. -/
def use_test {N : ℕ} (d : IterationData N) : Prop :=
  d.use_next ∧ d.test.value > d.next.value

instance {N : ℕ} (d : IterationData N) : Decidable d.use_test :=
  inferInstanceAs (Decidable (_ ∧ _))

/-- `IterationData<N>::done`:
`index == MAX_ITERATIONS || current_grad.norm() < GRAD_LIMIT`. -/
def done {N : ℕ} (d : IterationData N) : Prop :=
  d.index = MAX_ITERATIONS ∨ norm_lt d.current_grad GRAD_LIMIT

instance {N : ℕ} (d : IterationData N) : Decidable d.done :=
  inferInstanceAs (Decidable (_ ∨ _))

/-- `IterationData<N>::AtPoint` from `iteration.hpp`. -/
def AtPoint {N : ℕ} (current_point : CMyVektor N)
    (funktion : CMyVektor N → ℚ) (step_size : ℚ) (iteration_index : ℕ) :
    IterationData N :=
  let grad := gradient current_point funktion
  let next_point := vecAdd current_point (scalarMul step_size grad)
  let test_point := vecAdd current_point (scalarMul (step_size * 2) grad)
  { funktion := funktion
    index := iteration_index
    step_size := step_size
    current := Point.ofFun current_point funktion
    current_grad := grad
    next := Point.ofFun next_point funktion
    test := Point.ofFun test_point funktion }

/-- `IterationData<N>::Next` from `iteration.hpp`. -/
def Next {N : ℕ} (previous : IterationData N) : IterationData N :=
  if previous.use_test then
    AtPoint previous.test.vector previous.funktion (previous.step_size * 2)
      (previous.index + 1)
  else if previous.use_next then
    AtPoint previous.next.vector previous.funktion previous.step_size
      (previous.index + 1)
  else
    AtPoint previous.current.vector previous.funktion
      (previous.step_size / 2) (previous.index + 1)

end IterationData

/-- The loop of `gradient_descent` in `iteration.hpp`, with the remaining
number of loop iterations made explicit: each round checks `done`, returns
`current.vector` if it holds, and otherwise advances with `Next`; when the
rounds are exhausted the final state's `current.vector` is returned. -/
def gdLoop {N : ℕ} (iteration : IterationData N) : ℕ → CMyVektor N
  | 0 => iteration.current.vector
  | fuel + 1 =>
    if iteration.done then iteration.current.vector
    else gdLoop (IterationData.Next iteration) fuel

/-- `gradient_descent` from `iteration.hpp`: start from
`AtPoint(start_point, funktion, start_step_size, 0)` and run the loop for
at most `MAX_ITERATIONS` rounds. -/
def gradient_descent {N : ℕ} (start_point : CMyVektor N)
    (funktion : CMyVektor N → ℚ) (start_step_size : ℚ) : CMyVektor N :=
  gdLoop (IterationData.AtPoint start_point funktion start_step_size 0)
    IterationData.MAX_ITERATIONS

/-- `use_next` of the inner `CMyVektor<N>::IterationData` in
`cmyvektor.hpp`: `next.second <= current.second` (note: this is the
opposite convention of `iteration.hpp`; here `true` means the step did NOT
improve the objective).  The construction of the fields is identical to
`IterationData.AtPoint`, so the structure is shared. -/
def cmv_use_next {N : ℕ} (d : IterationData N) : Prop :=
  d.next.value ≤ d.current.value

instance {N : ℕ} (d : IterationData N) : Decidable (cmv_use_next d) :=
  inferInstanceAs (Decidable (_ ≤ _))

/-- `use_test` of the inner `CMyVektor<N>::IterationData` in
`cmyvektor.hpp`: `test.second > next.second` (no conjunction with
`use_next`, unlike `iteration.hpp`). -/
def cmv_use_test {N : ℕ} (d : IterationData N) : Prop :=
  d.test.value > d.next.value

instance {N : ℕ} (d : IterationData N) : Decidable (cmv_use_test d) :=
  inferInstanceAs (Decidable (_ < _))

/-- Body of the recursive `CMyVektor<N>::gradient_descent` in
`cmyvektor.hpp`, with the recursion depth bounded by an explicit `fuel`
argument (the C++ recursion terminates because `index` reaches
`MAX_ITERATIONS`; `MAX_ITERATIONS + 1` levels of fuel therefore suffice
for every call starting at index `0`).  Per the source: build the
iteration data; return `current.first` if `index == MAX_ITERATIONS` or the
gradient norm is below `GRAD_LIMIT`; otherwise double `step_size` when
`!use_next() && use_test()`, then recurse at `current.first` with
`step_size / 2` when `use_next()` holds, and at `next.first` with
`step_size` otherwise. -/
def cmv_gd {N : ℕ} (funktion : CMyVektor N → ℚ) :
    ℕ → CMyVektor N → ℚ → ℕ → CMyVektor N
  | 0, current, _, _ => current
  | fuel + 1, current, step_size, iteration_index =>
    let iteration :=
      IterationData.AtPoint current funktion step_size iteration_index
    if iteration.index = IterationData.MAX_ITERATIONS then
      iteration.current.vector
    else if norm_lt iteration.current_grad IterationData.GRAD_LIMIT then
      iteration.current.vector
    else
      let step_size2 :=
        if ¬ cmv_use_next iteration ∧ cmv_use_test iteration then
          step_size * 2
        else step_size
      if cmv_use_next iteration then
        cmv_gd funktion fuel iteration.current.vector (step_size2 / 2)
          (iteration.index + 1)
      else
        cmv_gd funktion fuel iteration.next.vector step_size2
          (iteration.index + 1)

/-- `CMyVektor<N>::gradient_descent` from `cmyvektor.hpp`, entered at
iteration index `0` as in `main.cpp`. -/
def cmv_gradient_descent {N : ℕ} (current : CMyVektor N)
    (funktion : CMyVektor N → ℚ) (step_size : ℚ) : CMyVektor N :=
  cmv_gd funktion (IterationData.MAX_ITERATIONS + 1) current step_size 0

/-- Instrumented rendering of the loop of `CMyVektor<N>::gradient`
counting the calls to `funktion`: for each index `i` in order, the loop
body evaluates `funktion(arg)` (where `arg` is `x` with `arg[i] += H`) and
then `funktion(*this)`, two calls — the result pairs the produced gradient
vector (entries written by `Vector.set`) with the total number of calls. -/
def gradientCountedStep {N : ℕ} (x : CMyVektor N)
    (funktion : CMyVektor N → ℚ) (acc : CMyVektor N × ℕ) (i : Fin N) :
    CMyVektor N × ℕ :=
  let arg := x.set i (x.get i + H)
  let a := funktion arg
  let calls1 := acc.2 + 1
  let b := funktion x
  let calls2 := calls1 + 1
  (acc.1.set i ((a - b) / H), calls2)

/-- The instrumented `gradient`: run `gradientCountedStep` over the indices
`0 .. N-1` in order, starting from the zero-initialized result vector and
zero calls. -/
def gradientCounted {N : ℕ} (x : CMyVektor N)
    (funktion : CMyVektor N → ℚ) : CMyVektor N × ℕ :=
  (List.finRange N).foldl (gradientCountedStep x funktion)
    (Mathlib.Vector.replicate N 0, 0)

/-- Each pass of the loop of `gradient` makes exactly two calls to
`funktion`. -/
theorem foldl_gradientCountedStep_snd {N : ℕ} (x : CMyVektor N)
    (f : CMyVektor N → ℚ) (l : List (Fin N)) (acc : CMyVektor N × ℕ) :
    (l.foldl (gradientCountedStep x f) acc).2 = acc.2 + 2 * l.length := by
  induction l generalizing acc with
  | nil => simp
  | cons i t ih =>
    rw [List.foldl_cons, ih]
    simp [gradientCountedStep]
    omega

/-- The vector produced by the instrumented loop agrees with `gradient` on
every index that the loop has visited. -/
theorem foldl_gradientCountedStep_get {N : ℕ} (x : CMyVektor N)
    (f : CMyVektor N → ℚ) (l : List (Fin N)) (acc : CMyVektor N × ℕ)
    (j : Fin N) :
    (l.foldl (gradientCountedStep x f) acc).1.get j =
      if j ∈ l then (gradient x f).get j else acc.1.get j := by
  induction l generalizing acc with
  | nil => simp
  | cons i t ih =>
    rw [List.foldl_cons, ih]
    by_cases hjt : j ∈ t
    · simp [hjt]
    · by_cases hij : i = j
      · subst hij
        simp [hjt, gradientCountedStep, Mathlib.Vector.get_set_same,
          gradient, Mathlib.Vector.get_ofFn]
      · simp [hjt, hij, Ne.symm hij, gradientCountedStep,
          Mathlib.Vector.get_set_of_ne hij]

/-- The instrumented loop computes exactly `gradient`. -/
theorem gradientCounted_fst {N : ℕ} (x : CMyVektor N)
    (f : CMyVektor N → ℚ) : (gradientCounted x f).1 = gradient x f := by
  apply Mathlib.Vector.ext
  intro j
  rw [gradientCounted, foldl_gradientCountedStep_get]
  simp [List.mem_finRange]

/-! ### Basic facts about `AtPoint` and `Next` -/

theorem AtPoint_funktion {N : ℕ} (x : CMyVektor N) (f : CMyVektor N → ℚ)
    (σ : ℚ) (i : ℕ) : (IterationData.AtPoint x f σ i).funktion = f := rfl

theorem AtPoint_index {N : ℕ} (x : CMyVektor N) (f : CMyVektor N → ℚ)
    (σ : ℚ) (i : ℕ) : (IterationData.AtPoint x f σ i).index = i := rfl

theorem AtPoint_step_size {N : ℕ} (x : CMyVektor N) (f : CMyVektor N → ℚ)
    (σ : ℚ) (i : ℕ) : (IterationData.AtPoint x f σ i).step_size = σ := rfl

theorem AtPoint_current_vector {N : ℕ} (x : CMyVektor N)
    (f : CMyVektor N → ℚ) (σ : ℚ) (i : ℕ) :
    (IterationData.AtPoint x f σ i).current.vector = x := rfl

theorem AtPoint_current_value {N : ℕ} (x : CMyVektor N)
    (f : CMyVektor N → ℚ) (σ : ℚ) (i : ℕ) :
    (IterationData.AtPoint x f σ i).current.value = f x := rfl

/-- `Next` always advances through `AtPoint` at one of the three candidate
vectors; this case split mirrors the `if`/`else if`/`else` of the source. -/
theorem Next_eq_cases {N : ℕ} (d : IterationData N) :
    IterationData.Next d =
      if d.use_test then
        IterationData.AtPoint d.test.vector d.funktion (d.step_size * 2)
          (d.index + 1)
      else if d.use_next then
        IterationData.AtPoint d.next.vector d.funktion d.step_size
          (d.index + 1)
      else
        IterationData.AtPoint d.current.vector d.funktion (d.step_size / 2)
          (d.index + 1) := rfl

/-- The transition function increments `index` by exactly one. -/
theorem Next_index {N : ℕ} (d : IterationData N) :
    (IterationData.Next d).index = d.index + 1 := by
  rw [IterationData.Next]
  split
  · rfl
  · split
    · rfl
    · rfl

/-- The transition function keeps `funktion`. -/
theorem Next_funktion {N : ℕ} (d : IterationData N) :
    (IterationData.Next d).funktion = d.funktion := by
  rw [IterationData.Next]
  split
  · rfl
  · split
    · rfl
    · rfl

/-- The transition function preserves strict positivity of the step size
(it multiplies by `2`, keeps, or divides by `2`). -/
theorem Next_step_pos {N : ℕ} (d : IterationData N)
    (h : 0 < d.step_size) : 0 < (IterationData.Next d).step_size := by
  rw [IterationData.Next]
  split
  · rw [AtPoint_step_size]
    positivity
  · split
    · rw [AtPoint_step_size]
      exact h
    · rw [AtPoint_step_size]
      positivity

/-- Index of the `k`-th state reachable from `d` by the transition
function. -/
theorem iterate_Next_index {N : ℕ} (d : IterationData N) (k : ℕ) :
    ((IterationData.Next (N := N))^[k] d).index = d.index + k := by
  induction k with
  | zero => rfl
  | succ k ih =>
    rw [Function.iterate_succ_apply', Next_index, ih, Nat.add_assoc]

/-- Strict positivity of the step size propagates to every reachable
state. -/
theorem iterate_Next_step_pos {N : ℕ} (d : IterationData N)
    (h : 0 < d.step_size) (k : ℕ) :
    0 < ((IterationData.Next (N := N))^[k] d).step_size := by
  induction k with
  | zero => exact h
  | succ k ih =>
    rw [Function.iterate_succ_apply']
    exact Next_step_pos _ ih

/-! ### Value consistency and the ascent property -/

/-- A state is consistent when the three cached objective values match the
objective at the corresponding vectors; every state built by `AtPoint` is
consistent by construction. -/
def Consistent {N : ℕ} (d : IterationData N) : Prop :=
  d.current.value = d.funktion d.current.vector ∧
  d.next.value = d.funktion d.next.vector ∧
  d.test.value = d.funktion d.test.vector

theorem consistent_AtPoint {N : ℕ} (x : CMyVektor N) (f : CMyVektor N → ℚ)
    (σ : ℚ) (i : ℕ) : Consistent (IterationData.AtPoint x f σ i) :=
  ⟨rfl, rfl, rfl⟩

theorem consistent_Next {N : ℕ} (d : IterationData N) :
    Consistent (IterationData.Next d) := by
  rw [IterationData.Next]
  split
  · exact consistent_AtPoint _ _ _ _
  · split
    · exact consistent_AtPoint _ _ _ _
    · exact consistent_AtPoint _ _ _ _

/-- One transition never decreases the accepted objective value: the chosen
re-evaluation point is `test.vector` only when `test.value` beats both
other values, `next.vector` only when `next.value` beats `current.value`,
and `current.vector` (same value) otherwise. -/
theorem Next_current_value_ge {N : ℕ} (d : IterationData N)
    (h : Consistent d) :
    d.current.value ≤ (IterationData.Next d).current.value := by
  obtain ⟨hc, hn, ht⟩ := h
  rw [IterationData.Next]
  split
  · rename_i htest
    rw [AtPoint_current_value, ← ht]
    exact le_of_lt (lt_trans htest.1 htest.2)
  · split
    · rename_i hnext
      rw [AtPoint_current_value, ← hn]
      exact le_of_lt hnext
    · rw [AtPoint_current_value, ← hc]

/-! ### Characterization of the optimizer loop -/

/-- If `j` is the first point of the trajectory of `s` at which `done`
holds and the loop has at least `j` rounds of fuel, the loop returns the
`current.vector` of that `j`-th state. -/
theorem gdLoop_eq_of_first_done {N : ℕ} :
    ∀ (fuel : ℕ) (s : IterationData N) (j : ℕ), j ≤ fuel →
      ((IterationData.Next (N := N))^[j] s).done →
      (∀ i < j, ¬ ((IterationData.Next (N := N))^[i] s).done) →
      gdLoop s fuel = ((IterationData.Next (N := N))^[j] s).current.vector
  | 0, s, j, hle, _, _ => by
    interval_cases j
    rfl
  | fuel + 1, s, j, hle, hdone, hmin => by
    by_cases hs : s.done
    · have hj : j = 0 := by
        by_contra hj0
        exact hmin 0 (Nat.pos_of_ne_zero hj0) hs
      subst hj
      rw [gdLoop, if_pos hs]
      rfl
    · match j with
      | 0 => exact absurd hdone hs
      | j + 1 =>
        rw [gdLoop, if_neg hs]
        rw [Function.iterate_succ_apply] at hdone ⊢
        exact gdLoop_eq_of_first_done fuel (IterationData.Next s) j
          (Nat.le_of_succ_le_succ hle) hdone
          (fun i hi => by
            have := hmin (i + 1) (Nat.succ_lt_succ hi)
            rwa [Function.iterate_succ_apply] at this)

/-- The numerical gradient of a constant objective is the zero vector. -/
theorem gradient_const {N : ℕ} (x : CMyVektor N) (c : ℚ) :
    gradient x (fun _ => c) = Mathlib.Vector.ofFn (fun _ => 0) := by
  rw [gradient]
  congr 1
  funext i
  rw [sub_self, zero_div]

/-- The squared norm of the zero vector vanishes. -/
theorem normSq_zero_vec {N : ℕ} :
    normSq (Mathlib.Vector.ofFn (fun _ => (0 : ℚ)) : CMyVektor N) = 0 := by
  rw [normSq, Mathlib.Vector.toList_ofFn, normSq_foldl_eq]
  simp

/-! ### Concrete inputs used in witnesses and counterexamples -/

set_option maxRecDepth 2000

/-- The one-dimensional zero vector. -/
def z1 : CMyVektor 1 := ⟨[0], rfl⟩

/-- The two-dimensional zero vector. -/
def z2 : CMyVektor 2 := ⟨[0, 0], rfl⟩

/-- A one-dimensional piecewise objective: slope `1` below `1/2`, value `1`
on `[1/2, 3/2)`, value `2` from `3/2` on.  Starting gradient ascent at `0`
with step size `1`, the first iteration sees `current.value = 0`,
`next.value = 1` (at `1`), `test.value = 2` (at `2`), and the numerical
gradient vanishes at both `1` and `2`, so both optimizers stop right after
their first transition. -/
def stepObj : CMyVektor 1 → ℚ := fun v =>
  if v.get 0 < 1/2 then v.get 0 else if v.get 0 < 3/2 then 1 else 2

/-- A linear one-dimensional objective with slope `5.0e-5`: its numerical
gradient is exactly `(5.0e-5)`, whose norm lies strictly between `1.0e-5`
and the source's `GRAD_LIMIT = 10.0e-5`. -/
def smallSlopeObj : CMyVektor 1 → ℚ := fun v => 5e-5 * v.get 0

/-- The iteration state at the origin for `smallSlopeObj`. -/
def smallGradState : IterationData 1 :=
  IterationData.AtPoint z1 smallSlopeObj 1 0

/-- An `IterationData` carrying the literal values of the spec's step-size
adaptation unit test: `current.value = 1.0`, `next.value = 2.0`,
`test.value = 1.5`. -/
def adaptState : IterationData 1 :=
  { funktion := fun _ => 0
    index := 0
    step_size := 1
    current := ⟨z1, 1⟩
    current_grad := z1
    next := ⟨z1, 2⟩
    test := ⟨z1, 3/2⟩ }

/-- The iteration state at the origin for `stepObj` with step size `1`. -/
def stepObjState : IterationData 1 := IterationData.AtPoint z1 stepObj 1 0

/-! ### The claims -/

/-- Claim C1: for every `IterationState` `previous` with positive step
size, `Next(previous)` is produced by exactly one of three ordered rules:
if `use_test()` then at `test.vector` with step size `step_size * 2`; else
if `use_next()` then at `next.vector` with the step size unchanged; else at
`current.vector` with step size `step_size / 2`; in every case via
`AtPoint` with index `previous.index + 1`. -/
theorem Next_three_rules {N : ℕ} (previous : IterationData N)
    (_h : 0 < previous.step_size) :
    (previous.use_test ∧ IterationData.Next previous =
        IterationData.AtPoint previous.test.vector previous.funktion
          (previous.step_size * 2) (previous.index + 1)) ∨
    (¬ previous.use_test ∧ previous.use_next ∧
      IterationData.Next previous =
        IterationData.AtPoint previous.next.vector previous.funktion
          previous.step_size (previous.index + 1)) ∨
    (¬ previous.use_test ∧ ¬ previous.use_next ∧
      IterationData.Next previous =
        IterationData.AtPoint previous.current.vector previous.funktion
          (previous.step_size / 2) (previous.index + 1)) := by
  by_cases h1 : previous.use_test
  · exact Or.inl ⟨h1, by rw [IterationData.Next, if_pos h1]⟩
  · by_cases h2 : previous.use_next
    · exact Or.inr (Or.inl ⟨h1, h2,
        by rw [IterationData.Next, if_neg h1, if_pos h2]⟩)
    · exact Or.inr (Or.inr ⟨h1, h2,
        by rw [IterationData.Next, if_neg h1, if_neg h2]⟩)

/-- Witness for claim C1 at the concrete state `stepObjState` (step size
`1 > 0`). -/
theorem Next_three_rules_witness :
    (0 : ℚ) < stepObjState.step_size ∧
    ((stepObjState.use_test ∧ IterationData.Next stepObjState =
        IterationData.AtPoint stepObjState.test.vector stepObjState.funktion
          (stepObjState.step_size * 2) (stepObjState.index + 1)) ∨
    (¬ stepObjState.use_test ∧ stepObjState.use_next ∧
      IterationData.Next stepObjState =
        IterationData.AtPoint stepObjState.next.vector stepObjState.funktion
          stepObjState.step_size (stepObjState.index + 1)) ∨
    (¬ stepObjState.use_test ∧ ¬ stepObjState.use_next ∧
      IterationData.Next stepObjState =
        IterationData.AtPoint stepObjState.current.vector
          stepObjState.funktion (stepObjState.step_size / 2)
          (stepObjState.index + 1))) :=
  ⟨by with_unfolding_all decide,
   Next_three_rules stepObjState (by with_unfolding_all decide)⟩

/-- Claim C2 counterexample: the state `smallGradState` satisfies `done`
although its index is not 25 and its gradient norm (`5.0e-5`) is not below
`1.0e-5` — the source constant `GRAD_LIMIT` is `10.0e-5 = 1.0e-4`, not the
claimed `1.0e-5`. -/
theorem done_below_claimed_limit :
    smallGradState.done ∧
      ¬ (smallGradState.index = 25 ∨
          norm_lt smallGradState.current_grad (1e-5 : ℚ)) := by
  with_unfolding_all decide

/-- Claim C2 as amended: `done(state)` holds iff `state.index = 25` or the
Euclidean norm of `state.current_grad` is strictly below `1.0e-4`
(the source's `GRAD_LIMIT = 10.0e-5`). -/
theorem done_iff {N : ℕ} (d : IterationData N) :
    d.done ↔ (d.index = 25 ∨ norm_lt d.current_grad (1e-4 : ℚ)) := by
  have h4 : IterationData.GRAD_LIMIT = (1e-4 : ℚ) := by
    norm_num [IterationData.GRAD_LIMIT]
  rw [IterationData.done, h4, IterationData.MAX_ITERATIONS]

/-- Claim C3: `use_next()` holds iff `next.value > current.value`,
`use_test()` holds iff `use_next()` and `test.value > next.value`; and for
the literal state with `current.value = 1.0`, `next.value = 2.0`,
`test.value = 1.5`, `use_next()` holds and `use_test()` fails. -/
theorem use_next_use_test_spec {N : ℕ} (d : IterationData N) :
    (d.use_next ↔ d.next.value > d.current.value) ∧
    (d.use_test ↔ (d.use_next ∧ d.test.value > d.next.value)) ∧
    (adaptState.use_next ∧ ¬ adaptState.use_test) :=
  ⟨Iff.rfl, Iff.rfl, by with_unfolding_all decide⟩

/-- Claim C4: every state produced by `AtPoint` satisfies the vector and
value invariants, `Next` increments `index` by exactly one, and a strictly
positive initial step size stays strictly positive along every state
reachable by `Next`. -/
theorem AtPoint_invariants {N : ℕ} (x : CMyVektor N)
    (f : CMyVektor N → ℚ) (σ : ℚ) (i : ℕ) (hσ : 0 < σ) :
    (IterationData.AtPoint x f σ i).next.vector =
      vecAdd (IterationData.AtPoint x f σ i).current.vector
        (scalarMul (IterationData.AtPoint x f σ i).step_size
          (IterationData.AtPoint x f σ i).current_grad) ∧
    (IterationData.AtPoint x f σ i).test.vector =
      vecAdd (IterationData.AtPoint x f σ i).current.vector
        (scalarMul (2 * (IterationData.AtPoint x f σ i).step_size)
          (IterationData.AtPoint x f σ i).current_grad) ∧
    (IterationData.AtPoint x f σ i).current.value =
      f (IterationData.AtPoint x f σ i).current.vector ∧
    (IterationData.AtPoint x f σ i).next.value =
      f (IterationData.AtPoint x f σ i).next.vector ∧
    (IterationData.AtPoint x f σ i).test.value =
      f (IterationData.AtPoint x f σ i).test.vector ∧
    (IterationData.AtPoint x f σ i).current_grad =
      gradient (IterationData.AtPoint x f σ i).current.vector f ∧
    (∀ s : IterationData N, (IterationData.Next s).index = s.index + 1) ∧
    (∀ k : ℕ, 0 < ((IterationData.Next (N := N))^[k]
        (IterationData.AtPoint x f σ i)).step_size) := by
  refine ⟨rfl, ?_, rfl, rfl, rfl, rfl, Next_index,
    iterate_Next_step_pos _ hσ⟩
  rw [mul_comm 2 (IterationData.AtPoint x f σ i).step_size]
  rfl

/-- Witness for claim C4 at the concrete input `z1`, `stepObj`, step size
`1 > 0`, index `0`. -/
theorem AtPoint_invariants_witness :
    (0 : ℚ) < 1 ∧
    ((IterationData.AtPoint z1 stepObj 1 0).next.vector =
      vecAdd (IterationData.AtPoint z1 stepObj 1 0).current.vector
        (scalarMul (IterationData.AtPoint z1 stepObj 1 0).step_size
          (IterationData.AtPoint z1 stepObj 1 0).current_grad) ∧
    (IterationData.AtPoint z1 stepObj 1 0).test.vector =
      vecAdd (IterationData.AtPoint z1 stepObj 1 0).current.vector
        (scalarMul (2 * (IterationData.AtPoint z1 stepObj 1 0).step_size)
          (IterationData.AtPoint z1 stepObj 1 0).current_grad) ∧
    (IterationData.AtPoint z1 stepObj 1 0).current.value =
      stepObj (IterationData.AtPoint z1 stepObj 1 0).current.vector ∧
    (IterationData.AtPoint z1 stepObj 1 0).next.value =
      stepObj (IterationData.AtPoint z1 stepObj 1 0).next.vector ∧
    (IterationData.AtPoint z1 stepObj 1 0).test.value =
      stepObj (IterationData.AtPoint z1 stepObj 1 0).test.vector ∧
    (IterationData.AtPoint z1 stepObj 1 0).current_grad =
      gradient (IterationData.AtPoint z1 stepObj 1 0).current.vector
        stepObj ∧
    (∀ s : IterationData 1, (IterationData.Next s).index = s.index + 1) ∧
    (∀ k : ℕ, 0 < ((IterationData.Next (N := 1))^[k]
        (IterationData.AtPoint z1 stepObj 1 0)).step_size)) :=
  ⟨by norm_num, AtPoint_invariants z1 stepObj 1 0 (by norm_num)⟩

/-- Claim C5: the `i`-th component of `gradient(f, x)` is the forward
finite difference `(f(x with component i increased by H) − f(x)) / H` with
`H = 1.0e-7` (the source's literal `10.0e-8`). -/
theorem gradient_components {N : ℕ} (x : CMyVektor N)
    (f : CMyVektor N → ℚ) (i : Fin N) :
    H = (1e-7 : ℚ) ∧
    (gradient x f).get i =
      (f (x.set i (x.get i + (1e-7 : ℚ))) - f x) / (1e-7 : ℚ) := by
  have hH : H = (1e-7 : ℚ) := by norm_num [H]
  refine ⟨hH, ?_⟩
  rw [gradient, Mathlib.Vector.get_ofFn, hH]

/-- Claim C6 counterexample: at dimension `N = 2` a single call of the
gradient loop makes `4` calls to `funktion`, not the claimed
`N + 1 = 3` — the source re-evaluates `funktion(*this)` inside the loop
instead of sharing it. -/
theorem gradientCounted_two_dim_claim_fails :
    (gradientCounted z2 (fun _ => 0)).2 ≠ 2 + 1 := by
  with_unfolding_all decide

/-- Claim C6 as amended: a single call to `gradient(f, x)` evaluates `f`
exactly `2 * N` times — two per axis (`funktion(arg)` and
`funktion(*this)` both inside the loop), with no shared evaluation. -/
theorem gradientCounted_calls {N : ℕ} (x : CMyVektor N)
    (f : CMyVektor N → ℚ) : (gradientCounted x f).2 = 2 * N := by
  rw [gradientCounted, foldl_gradientCountedStep_snd]
  simp

/-- Claim C7: along the trajectory of the optimizer loop (`state_0` from
`AtPoint`, `state_{k+1} = Next(state_k)`), the accepted objective value
`current.value` never decreases. -/
theorem optimize_value_monotone {N : ℕ} (x : CMyVektor N)
    (f : CMyVektor N → ℚ) (σ : ℚ) (i k : ℕ) :
    ((IterationData.Next (N := N))^[k]
        (IterationData.AtPoint x f σ i)).current.value ≤
    ((IterationData.Next (N := N))^[k + 1]
        (IterationData.AtPoint x f σ i)).current.value := by
  rw [Function.iterate_succ_apply']
  apply Next_current_value_ge
  cases k with
  | zero => exact consistent_AtPoint x f σ i
  | succ k =>
    rw [Function.iterate_succ_apply']
    exact consistent_Next _

/-- Claim C8: `gradient_descent` returns the `current.vector` of the first
state of the trajectory at which `done()` holds, and that state occurs
within `MAX_ITERATIONS = 25` transitions (hence at most 26 produced
states); if no earlier state is `done`, the state at the cap — whose index
is 25, so it is `done` — is the one returned. -/
theorem gradient_descent_returns_first_done {N : ℕ} (start : CMyVektor N)
    (f : CMyVektor N → ℚ) (σ : ℚ) :
    ∃ j : ℕ, j ≤ IterationData.MAX_ITERATIONS ∧
      ((IterationData.Next (N := N))^[j]
          (IterationData.AtPoint start f σ 0)).done ∧
      (∀ i < j, ¬ ((IterationData.Next (N := N))^[i]
          (IterationData.AtPoint start f σ 0)).done) ∧
      gradient_descent start f σ =
        ((IterationData.Next (N := N))^[j]
            (IterationData.AtPoint start f σ 0)).current.vector := by
  have h25 : ((IterationData.Next (N := N))^[IterationData.MAX_ITERATIONS]
      (IterationData.AtPoint start f σ 0)).done := by
    left
    rw [iterate_Next_index, AtPoint_index, Nat.zero_add]
  have hex : ∃ j, ((IterationData.Next (N := N))^[j]
      (IterationData.AtPoint start f σ 0)).done := ⟨_, h25⟩
  refine ⟨Nat.find hex, Nat.find_min' hex h25, Nat.find_spec hex,
    fun i hi => Nat.find_min hex hi, ?_⟩
  rw [gradient_descent]
  exact gdLoop_eq_of_first_done IterationData.MAX_ITERATIONS _ _
    (Nat.find_min' hex h25) (Nat.find_spec hex)
    (fun i hi => Nat.find_min hex hi)

/-- Claim C9 counterexample: called with the non-positive initial step
size `-1`, `gradient_descent` does not reject the call — it runs the loop
normally and returns a vector (here the start point, since the constant
objective has zero gradient). -/
theorem gradient_descent_runs_at_nonpositive_step :
    gradient_descent z1 (fun _ => 0) (-1) = z1 := by
  with_unfolding_all decide

/-- Claim C9 as amended: `gradient_descent` performs no validation of the
initial step size; for every step size (non-positive ones included) and
any constant objective it runs the normal loop and returns the start
point. -/
theorem gradient_descent_const {N : ℕ} (start : CMyVektor N) (c σ : ℚ) :
    gradient_descent start (fun _ => c) σ = start := by
  have hgrad : (IterationData.AtPoint start (fun _ => c) σ 0).current_grad =
      Mathlib.Vector.ofFn (fun _ => 0) := gradient_const start c
  have hdone : (IterationData.AtPoint start (fun _ => c) σ 0).done := by
    right
    rw [norm_lt, hgrad, normSq_zero_vec]
    have : IterationData.GRAD_LIMIT = (1e-4 : ℚ) := by
      norm_num [IterationData.GRAD_LIMIT]
    rw [this]
    norm_num
  rw [gradient_descent,
    show IterationData.MAX_ITERATIONS = 24 + 1 from rfl, gdLoop,
    if_pos hdone]
  rfl

/-- Claim C10 counterexample: on the objective `stepObj`, from start `0`
with (strictly positive) initial step size `1`, the iterative
`gradient_descent` of `iteration.hpp` and the recursive
`CMyVektor::gradient_descent` of `cmyvektor.hpp` return different
vectors. -/
theorem gd_iterative_ne_recursive :
    (gradient_descent z1 stepObj 1).get 0 ≠
      (cmv_gradient_descent z1 stepObj 1).get 0 := by
  with_unfolding_all decide

/-- Claim C10 as amended: the two implementations do not agree in general;
when the doubled-step test point improves further, the iterative version
moves to `test.vector` while the recursive version moves to `next.vector`
(both with doubled step size).  On `stepObj` from `0` with step size `1`
the iterative version returns `(2)` and the recursive one returns `(1)`. -/
theorem gd_iterative_recursive_values :
    (gradient_descent z1 stepObj 1).get 0 = 2 ∧
    (cmv_gradient_descent z1 stepObj 1).get 0 = 1 := by
  with_unfolding_all decide

end GradOpt
